import Mathlib

/-!
Shallow embedding of the `torrent_series_retriever` repository
(`src/torrent_series_retriever.py` and `src/processor/torrent_series_retriever.py`)
and proofs about its reconciliation, selection and retry behaviour.

Machine integers are modelled as `Int` (Python integers are unbounded),
episode sets as `Finset (Int × Int)`, fallible calls as `Except`/`Option`,
and external I/O (HTTP search, database, qBittorrent) as explicit oracles
passed in as arguments, so that every definition mirrors the control flow
of the Python source.
-/

/-- An episode key `(season, episode)` as built by `(int(s), int(e))` in the source. -/
abbrev EpKey := Int × Int

/-- The lexicographic order on `(season, episode)` pairs: the order Python's
`sorted()` uses on tuples of ints, as in `Serie.to_download`. -/
def epLE (a b : EpKey) : Prop := a.1 < b.1 ∨ (a.1 = b.1 ∧ a.2 ≤ b.2)

instance : DecidableRel epLE := fun a b => by
  unfold epLE; infer_instance

instance : IsTotal EpKey epLE := by
  constructor
  intro a b
  rcases lt_trichotomy a.1 b.1 with h | h | h
  · exact Or.inl (Or.inl h)
  · rcases le_total a.2 b.2 with h2 | h2
    · exact Or.inl (Or.inr ⟨h, h2⟩)
    · exact Or.inr (Or.inr ⟨h.symm, h2⟩)
  · exact Or.inr (Or.inl h)

instance : IsTrans EpKey epLE := by
  constructor
  intro a b c hab hbc
  rcases hab with h1 | ⟨e1, l1⟩
  · rcases hbc with h2 | ⟨e2, l2⟩
    · exact Or.inl (h1.trans h2)
    · exact Or.inl (e2 ▸ h1)
  · rcases hbc with h2 | ⟨e2, l2⟩
    · exact Or.inl (e1 ▸ h2)
    · exact Or.inr ⟨e1.trans e2, l1.trans l2⟩

instance : IsAntisymm EpKey epLE := by
  constructor
  intro a b hab hba
  rcases hab with h1 | ⟨e1, l1⟩
  · rcases hba with h2 | ⟨e2, l2⟩
    · exact absurd (h1.trans h2) (lt_irrefl _)
    · exact absurd h1 (e2 ▸ lt_irrefl _)
  · rcases hba with h2 | ⟨e2, l2⟩
    · exact absurd h2 (e1 ▸ lt_irrefl _)
    · exact Prod.ext e1 (le_antisymm l1 l2)

/-- The unique `epLE`-sorted list of the elements of a multiset of episode
keys (Python's `sorted()` on a set of int pairs).  Implemented by insertion
sort so that it reduces inside the kernel. -/
def sortedListOf (s : Multiset EpKey) : List EpKey :=
  Quot.liftOn s (List.insertionSort epLE) (fun l1 l2 h =>
    List.eq_of_perm_of_sorted
      ((List.perm_insertionSort epLE l1).trans
        (h.trans (List.perm_insertionSort epLE l2).symm))
      (List.sorted_insertionSort epLE l1) (List.sorted_insertionSort epLE l2))

theorem mem_sortedListOf (s : Multiset EpKey) (e : EpKey) :
    e ∈ sortedListOf s ↔ e ∈ s :=
  Quot.inductionOn s (fun l => by
    simp [sortedListOf] )

theorem nodup_sortedListOf (s : Multiset EpKey) (h : s.Nodup) :
    (sortedListOf s).Nodup :=
  Quot.inductionOn s (fun _ hl => ((List.perm_insertionSort epLE _).nodup_iff).mpr hl) h

theorem sorted_sortedListOf (s : Multiset EpKey) :
    (sortedListOf s).Sorted epLE :=
  Quot.inductionOn s (fun l => List.sorted_insertionSort epLE l)

/-- The property `Serie.to_download` (src/torrent_series_retriever.py, lines 253-255):
`sorted(self.all_episodes - self.kodi_episodes)`. -/
def toDownload (allEps kodiEps : Finset EpKey) : List EpKey :=
  sortedListOf (allEps \ kodiEps).val

/-- C1: for every pair of episode sets, `Serie.to_download` contains exactly the
episodes of `all_episodes − kodi_episodes`, each exactly once, in ascending
(season, episode) order.  (This holds for `Serie.to_download`; the processor's
`process_series` iterates the same difference as an unsorted Python set, which
is the divergence recorded for this claim.) -/
theorem c1_toDownload_exact_once_sorted (allEps kodiEps : Finset EpKey) :
    (∀ e : EpKey, e ∈ toDownload allEps kodiEps ↔ e ∈ allEps ∧ e ∉ kodiEps)
    ∧ (toDownload allEps kodiEps).Nodup
    ∧ (toDownload allEps kodiEps).Sorted epLE := by
  refine ⟨?_, ?_, ?_⟩
  · intro e
    rw [toDownload, mem_sortedListOf, ← Finset.mem_def, Finset.mem_sdiff]
  · exact nodup_sortedListOf _ (allEps \ kodiEps).nodup
  · exact sorted_sortedListOf _

/-- One raw search result from apibay (`q.php` JSON): the fields the code
reads (`name`, `info_hash`) plus the seeder count that the spec's selector
consults but the code never reads. -/
structure Candidate where
  name : String
  infoHash : String
  seeders : Int
  deriving DecidableEq

/-- Whether `p` is a prefix of `l` (character lists). -/
def hasPrefixB : List Char → List Char → Bool
  | [], _ => true
  | _ :: _, [] => false
  | a :: p, b :: l => a == b && hasPrefixB p l

/-- Whether `p` occurs as a contiguous substring of `l`. -/
def hasSubstrB (p : List Char) : List Char → Bool
  | [] => hasPrefixB p []
  | l@(_ :: t) => hasPrefixB p l || hasSubstrB p t

/-- The pattern `S\d{2}E\d{2}` (case-insensitive, ASCII digits) anchored at
the head of the list, as tested by `re.search(r"S\d{2}E\d{2}", name, re.I)`. -/
def sxxexxAt : List Char → Bool
  | s :: d1 :: d2 :: e :: d3 :: d4 :: _ =>
    (s == 'S' || s == 's') && d1.isDigit && d2.isDigit
      && (e == 'E' || e == 'e') && d3.isDigit && d4.isDigit
  | _ => false

/-- The test `re.search(r"S\d{2}E\d{2}", ·, re.I)`: the pattern occurs somewhere. -/
def sxxexxB : List Char → Bool
  | [] => false
  | l@(_ :: t) => sxxexxAt l || sxxexxB t

/-- The acceptance test of the processor's quality loop
(src/processor/torrent_series_retriever.py line 314):
`if name and re.search(r"S\d{2}E\d{2}", name, re.I)`. -/
def validNameB (name : String) : Bool :=
  (name != "") && sxxexxB name.data

/-- The inner result loop of `process_series` (processor lines 312-319): take
the first search result, in provider order, whose name passes `validNameB`;
the seeder field is never consulted. -/
def selectCandidate : List Candidate → Option Candidate
  | [] => none
  | r :: rest => if validNameB r.name then some r else selectCandidate rest

/-- The `qualities` list of the processor's `process_series`
(src/processor/torrent_series_retriever.py lines 191-294), in source order. -/
def qualities : List String :=
  [ "2160p 10bit HDR Atmos DTS-X 7.1 H265",
    "2160p 10bit HDR Atmos DTS-HD 7.1 H265",
    "2160p 10bit HDR Atmos TrueHD 7.1 H265",
    "2160p 10bit HDR Atmos DDP 5.1 H265",
    "2160p 10bit HDR DTS-X 7.1 H265",
    "2160p 10bit HDR DTS-HD 7.1 H265",
    "2160p 10bit HDR DTS 5.1 H265",
    "2160p HDR Atmos DTS-X 7.1 H265",
    "2160p HDR Atmos DTS-HD 7.1 H265",
    "2160p HDR Atmos DTS 5.1 H265",
    "2160p HDR DTS-X 7.1 H265",
    "2160p HDR DTS-HD 7.1 H265",
    "2160p HDR DTS 5.1 H265",
    "2160p 10bit DTS-X 7.1 H265",
    "2160p 10bit DTS-HD 7.1 H265",
    "2160p Atmos DTS 5.1 H265",
    "2160p Atmos 7.1 H265",
    "2160p Atmos 5.1 H265",
    "2160p 7.1 DTS-X H265",
    "2160p 7 1 DTS-HD H265",
    "2160p 5.1 DTS H265",
    "2160p 5 1 DTS H265",
    "2160p H265",
    "2160p HEVC",
    "2160p UHD BluRay",
    "2160p UHD WEB-DL",
    "2160p WEB-DL H265",
    "2160p WEB-DL",
    "2160p BluRay",
    "2160p UHD",
    "2160p",
    "1080p 10bit HDR Atmos DTS-X 7.1 H265",
    "1080p 10bit HDR Atmos DTS-HD 7.1 H265",
    "1080p 10bit HDR DTS-X 7.1 H265",
    "1080p 10bit HDR DTS-HD 7.1 H265",
    "1080p HDR Atmos DTS 5.1 H265",
    "1080p HDR DTS-X 7.1 H265",
    "1080p HDR DTS-HD 7.1 H265",
    "1080p HDR DTS 5.1 H265",
    "1080p Atmos DTS-X 7.1 H265",
    "1080p Atmos DTS-HD 7.1",
    "1080p Atmos DTS 5.1",
    "1080p 7.1 DTS-X",
    "1080p 7 1 DTS-HD",
    "1080p 5.1 DTS",
    "1080p 5 1 DTS",
    "1080p H265",
    "1080p HEVC",
    "1080p BluRay DTS",
    "1080p BluRay",
    "1080p WEB-DL H265",
    "1080p WEB-DL",
    "1080p WEBRip",
    "1080p HDTV",
    "1080p Proper",
    "1080p Repack",
    "720p DTS 5.1",
    "720p 5.1 DTS",
    "720p H265",
    "720p BluRay",
    "720p WEB-DL",
    "720p WEBRip",
    "720p HDTV",
    "720p Proper",
    "720p Repack",
    "720p",
    "576p",
    "480p",
    "SD",
    "BluRay",
    "WEB-DL",
    "WEBRip",
    "HDTV",
    "DTS-X",
    "DTS-HD",
    "DTS",
    "DTX",
    "Atmos",
    "TrueHD",
    "DDP",
    "H265",
    "H264",
    "HEVC",
    "X265",
    "X264",
    "FullHD",
    "FHD",
    "1080p",
    "HD",
    "SDTV",
    "Low Quality",
    "Unknown",
    "Any",
    "" ]

/-- Python `f"{n:02}"` on the season/episode numbers used in queries. -/
def pad2 (n : Int) : String :=
  let s := toString n
  if s.length < 2 then "0" ++ s else s

/-- The base query of step 1 of the processor's todo loop (line 299):
`f"{title} s{season:02}e{episode:02}"`. -/
def baseQuery (title : String) (ep : EpKey) : String :=
  title ++ " s" ++ pad2 ep.1 ++ "e" ++ pad2 ep.2

/-- The per-quality query (line 311): `f"{title} s{season:02}e{episode:02} {q}"`. -/
def episodeQuery (title : String) (ep : EpKey) (q : String) : String :=
  baseQuery title ep ++ " " ++ q

/-- The quality loop with its `found` flag and double `break` (processor lines
310-321): the first quality whose search results contain a valid candidate
wins, and the first such candidate is acquired. -/
def qualityLoop (search : String → List Candidate) (title : String) (ep : EpKey) :
    List String → Option Candidate
  | [] => none
  | q :: qs =>
    match selectCandidate (search (episodeQuery title ep q)) with
    | some c => some c
    | none => qualityLoop search title ep qs

/-- One iteration of the processor's todo loop (lines 295-324): step 1 checks
that the base query returns a non-empty list whose FIRST result's name matches
`S\d{2}E\d{2}` (line 302-307, `continue` otherwise); step 2 runs the quality
loop.  The result is the candidate acquired for this episode, if any. -/
def episodeOutcome (search : String → List Candidate) (title : String) (ep : EpKey) :
    Option Candidate :=
  match search (baseQuery title ep) with
  | [] => none
  | r0 :: _ =>
    if sxxexxB r0.name.data then qualityLoop search title ep qualities
    else none

/-- The whole todo loop of the processor's `process_series`: each element of
the todo iteration is handled independently by `episodeOutcome`; `todoList` is
the iteration order of the Python set `todo = imdb_eps - kodi_eps`. -/
def processSeriesRun (search : String → List Candidate) (title : String)
    (todoList : List EpKey) : List (EpKey × Option Candidate) :=
  todoList.map (fun ep => (ep, episodeOutcome search title ep))

/-- The work-unit vocabulary of the design (spec §3): a whole-season pack or a
single episode.  The source only ever realizes the single-episode form. -/
inductive WorkUnit where
  | seasonPack (season : Int)
  | singleEpisode (season episode : Int)
  deriving DecidableEq

/-- The units actually processed by the processor's `process_series`: one
single-episode unit per element of the todo iteration, in iteration order
(each todo element gets exactly one SxxEyy search sequence; the source has no
season-pack path at all). -/
def codeUnits (search : String → List Candidate) (title : String)
    (todoList : List EpKey) : List WorkUnit :=
  (processSeriesRun search title todoList).map
    (fun pr => WorkUnit.singleEpisode pr.1.1 pr.1.2)

/-- Lower-case a string to a character list (Python `.lower()`, ASCII model). -/
def lowerB (s : String) : List Char := s.data.map Char.toLower

/-- Split a character list into space-separated tokens, dropping empties;
`acc` carries the (reversed) token being read. -/
def splitTokensAux : List Char → List Char → List (List Char)
  | acc, [] => if acc.isEmpty then [] else [acc.reverse]
  | acc, c :: rest =>
    if c == ' ' then
      if acc.isEmpty then splitTokensAux [] rest
      else acc.reverse :: splitTokensAux [] rest
    else splitTokensAux (c :: acc) rest

/-- Modelled from the spec: §4.2 CandidateMatcher token list — the tier split
into whitespace tokens, lower-cased (used only to compare the spec's selector
with the source; the source has no such matcher). -/
def specTierTokens (tier : String) : List (List Char) :=
  splitTokensAux [] (lowerB tier)

/-- Modelled from the spec: §4.2 CandidateMatcher — every token of the tier
must occur as a case-insensitive substring of the candidate name; an empty
tier matches everything. -/
def specMatches (tier : String) (name : String) : Bool :=
  (specTierTokens tier).all (fun t => hasSubstrB t (lowerB name))

/-- Unfolding of `selectCandidate` on a cons. -/
theorem selectCandidate_cons (r : Candidate) (rest : List Candidate) :
    selectCandidate (r :: rest)
      = if validNameB r.name then some r else selectCandidate rest := rfl

/-- Modelled from the spec: §4.3 argmax by seeders with ties broken by the
first-encountered candidate (input order). -/
def argmaxSeeders (l : List Candidate) : Option Candidate :=
  l.foldl (fun acc c =>
    match acc with
    | none => some c
    | some m => if c.seeders > m.seeders then some c else some m) none

/-- Modelled from the spec: §4.3 CandidateSelector — first tier with at least
one matching candidate wins, returning the matched candidate with the most
seeders; fallback is the global argmax. -/
def specSelect (tiers : List String) (cands : List Candidate) : Option Candidate :=
  match tiers.findSome? (fun t => argmaxSeeders (cands.filter (fun c => specMatches t c.name))) with
  | some c => some c
  | none => argmaxSeeders cands

/-- Modelled from the spec: §4.5 Reconciler steps 1-3 — season-pack units for
todo seasons with zero owned episodes, single-episode units for the rest. -/
def specPlan (owned desired : Finset EpKey) : List WorkUnit :=
  let todo := toDownload desired owned
  let seasons := (todo.map Prod.fst).dedup
  let packSeasons := seasons.filter (fun s => decide (∀ e ∈ owned, e.1 ≠ s))
  packSeasons.map WorkUnit.seasonPack
    ++ (todo.filter (fun e => decide (e.1 ∉ packSeasons))).map
        (fun e => WorkUnit.singleEpisode e.1 e.2)

/-- C2 counterexample: at the spec's own scenario
`owned = {(1,1),(1,2)}`, `desired = {(1,1),(1,2),(1,3),(2,1)}`, season 2 is
fully missing (pack-eligible per the claim) and the spec's plan emits
`SeasonPack 2`, but the code processes both todo episodes — (1,3) and (2,1) —
as single-episode units and emits no season-pack unit. -/
theorem c2_counterexample :
    (∀ e ∈ ({((1:Int),(1:Int)), (1,2)} : Finset EpKey), e.1 ≠ 2)
    ∧ ((2,1) : EpKey) ∈ toDownload {(1,1),(1,2),(1,3),(2,1)} {(1,1),(1,2)}
    ∧ WorkUnit.seasonPack 2 ∈ specPlan {(1,1),(1,2)} {(1,1),(1,2),(1,3),(2,1)}
    ∧ codeUnits (fun _ => []) "Show" (toDownload {(1,1),(1,2),(1,3),(2,1)} {(1,1),(1,2)})
        = [WorkUnit.singleEpisode 1 3, WorkUnit.singleEpisode 2 1]
    ∧ WorkUnit.seasonPack 2 ∉
        codeUnits (fun _ => []) "Show" (toDownload {(1,1),(1,2),(1,3),(2,1)} {(1,1),(1,2)}) := by
  decide

/-- C2 amended: the source has no season-pack path.  Every element of the todo
iteration is processed as exactly one single-episode unit, in iteration order,
and no `SeasonPack` unit is ever produced, whatever the search results. -/
theorem c2_every_unit_single_episode (search : String → List Candidate)
    (title : String) (todoList : List EpKey) :
    codeUnits search title todoList
        = todoList.map (fun p => WorkUnit.singleEpisode p.1 p.2)
    ∧ (∀ u ∈ codeUnits search title todoList, ∃ s e,
        u = WorkUnit.singleEpisode s e ∧ (s, e) ∈ todoList)
    ∧ ∀ s, WorkUnit.seasonPack s ∉ codeUnits search title todoList := by
  have hmap : codeUnits search title todoList
      = todoList.map (fun p => WorkUnit.singleEpisode p.1 p.2) := by
    simp [codeUnits, processSeriesRun]
  refine ⟨hmap, ?_, ?_⟩
  · intro u hu
    rw [hmap, List.mem_map] at hu
    obtain ⟨p, hp, rfl⟩ := hu
    exact ⟨p.1, p.2, rfl, hp⟩
  · intro s hs
    rw [hmap, List.mem_map] at hs
    obtain ⟨p, _, hp⟩ := hs
    exact WorkUnit.noConfusion hp

/-- Witness for `c2_every_unit_single_episode` at a concrete plan. -/
theorem c2_every_unit_single_episode_witness :
    WorkUnit.seasonPack 2 ∉
      codeUnits (fun _ => []) "Show" [((1:Int), (3:Int)), ((2:Int), (1:Int))] :=
  (c2_every_unit_single_episode (fun _ => []) "Show" [(1, 3), (2, 1)]).2.2 2

theorem selectCandidate_eq_some_iff (results : List Candidate) (c : Candidate) :
    selectCandidate results = some c ↔
      ∃ pre post, results = pre ++ c :: post ∧ validNameB c.name = true
        ∧ ∀ x ∈ pre, validNameB x.name = false := by
  induction results with
  | nil =>
    constructor
    · intro h
      exact absurd h (by simp [selectCandidate])
    · rintro ⟨pre, post, heq, -, -⟩
      exact absurd heq (by simp)
  | cons r rest ih =>
    rw [selectCandidate_cons]
    by_cases h : validNameB r.name
    · rw [if_pos h]
      constructor
      · intro hrc
        obtain rfl : r = c := Option.some.inj hrc
        exact ⟨[], rest, rfl, h, by simp⟩
      · rintro ⟨pre, post, heq, hc, hpre⟩
        cases pre with
        | nil =>
          rw [List.nil_append] at heq
          rw [(List.cons_eq_cons.mp heq).1]
        | cons p pre2 =>
          rw [List.cons_append] at heq
          obtain ⟨rfl, -⟩ := List.cons_eq_cons.mp heq
          have hfalse := hpre r (List.mem_cons_self r pre2)
          exact absurd h (by simp [hfalse])
    · rw [if_neg h, ih]
      constructor
      · rintro ⟨pre, post, heq, hc, hpre⟩
        refine ⟨r :: pre, post, by rw [List.cons_append, heq], hc, ?_⟩
        intro x hx
        rcases List.mem_cons.mp hx with rfl | hx2
        · exact Bool.eq_false_iff.mpr h
        · exact hpre x hx2
      · rintro ⟨pre, post, heq, hc, hpre⟩
        cases pre with
        | nil =>
          rw [List.nil_append] at heq
          obtain ⟨rfl, -⟩ := List.cons_eq_cons.mp heq
          exact absurd hc h
        | cons p pre2 =>
          rw [List.cons_append] at heq
          obtain ⟨rfl, hrest⟩ := List.cons_eq_cons.mp heq
          exact ⟨pre2, post, hrest, hc, fun x hx => hpre x (List.mem_cons_of_mem _ hx)⟩

theorem selectCandidate_eq_none_iff (results : List Candidate) :
    selectCandidate results = none ↔ ∀ c ∈ results, validNameB c.name = false := by
  induction results with
  | nil => simp [selectCandidate]
  | cons r rest ih =>
    rw [selectCandidate_cons]
    by_cases h : validNameB r.name
    · rw [if_pos h]
      constructor
      · intro hsome
        exact absurd hsome (by simp)
      · intro hall
        exact absurd h (by simp [hall r (List.mem_cons_self r rest)])
    · rw [if_neg h, ih]
      constructor
      · intro hall x hx
        rcases List.mem_cons.mp hx with rfl | hx2
        · exact Bool.eq_false_iff.mpr h
        · exact hall x hx2
      · intro hall x hx
        exact hall x (List.mem_cons_of_mem _ hx)

theorem selectCandidate_seeder_blind (g : Candidate → Int) (results : List Candidate) :
    selectCandidate (results.map (fun c => ⟨c.name, c.infoHash, g c⟩)) =
      (selectCandidate results).map (fun c => ⟨c.name, c.infoHash, g c⟩) := by
  induction results with
  | nil => rfl
  | cons r rest ih =>
    by_cases h : validNameB r.name
    · simp [selectCandidate_cons, h]
    · simp [selectCandidate_cons, h, ih]

theorem qualityLoop_eq_some_iff (search : String → List Candidate) (title : String)
    (ep : EpKey) (qs : List String) (c : Candidate) :
    qualityLoop search title ep qs = some c ↔
      ∃ pre q post, qs = pre ++ q :: post
        ∧ selectCandidate (search (episodeQuery title ep q)) = some c
        ∧ ∀ q2 ∈ pre, selectCandidate (search (episodeQuery title ep q2)) = none := by
  induction qs with
  | nil =>
    constructor
    · intro h
      exact absurd h (by simp [qualityLoop])
    · rintro ⟨pre, q, post, heq, -, -⟩
      exact absurd heq (by simp)
  | cons q0 qs2 ih =>
    show (match selectCandidate (search (episodeQuery title ep q0)) with
      | some c2 => some c2
      | none => qualityLoop search title ep qs2) = some c ↔ _
    cases hsel : selectCandidate (search (episodeQuery title ep q0)) with
    | some c2 =>
      simp only [Option.some.injEq]
      constructor
      · rintro rfl
        exact ⟨[], q0, qs2, rfl, hsel, by simp⟩
      · rintro ⟨pre, q, post, heq, hq, hpre⟩
        cases pre with
        | nil =>
          rw [List.nil_append] at heq
          obtain ⟨rfl, -⟩ := List.cons_eq_cons.mp heq
          rw [hsel] at hq
          exact Option.some.inj hq
        | cons p pre2 =>
          rw [List.cons_append] at heq
          obtain ⟨rfl, -⟩ := List.cons_eq_cons.mp heq
          have := hpre q0 (List.mem_cons_self q0 pre2)
          rw [hsel] at this
          exact absurd this (by simp)
    | none =>
      rw [ih]
      constructor
      · rintro ⟨pre, q, post, heq, hq, hpre⟩
        refine ⟨q0 :: pre, q, post, by rw [List.cons_append, heq], hq, ?_⟩
        intro q2 hq2
        rcases List.mem_cons.mp hq2 with rfl | hq3
        · exact hsel
        · exact hpre q2 hq3
      · rintro ⟨pre, q, post, heq, hq, hpre⟩
        cases pre with
        | nil =>
          rw [List.nil_append] at heq
          obtain ⟨rfl, -⟩ := List.cons_eq_cons.mp heq
          rw [hsel] at hq
          exact absurd hq (by simp)
        | cons p pre2 =>
          rw [List.cons_append] at heq
          obtain ⟨rfl, hrest⟩ := List.cons_eq_cons.mp heq
          exact ⟨pre2, q, post, hrest, hq, fun q2 h2 => hpre q2 (List.mem_cons_of_mem _ h2)⟩

/-- C3 counterexample: at the spec's own scenario — candidates
`720p` (5 seeders) and `1080p BluRay` (2 seeders), tiers
`["1080p bluray", "720p", ""]` — the spec's selector returns the 1080p BluRay
item, but the code (the quality loop of the processor's `process_series`)
acquires the 720p item: it takes the first result whose name passes the
SxxExx test and never compares seeders or tier tokens. -/
theorem c3_counterexample :
    specSelect ["1080p bluray", "720p", ""]
        [⟨"Show S01E02 720p", "h1", 5⟩, ⟨"Show S01E02 1080p BluRay", "h2", 2⟩]
      = some ⟨"Show S01E02 1080p BluRay", "h2", 2⟩
    ∧ selectCandidate
        [⟨"Show S01E02 720p", "h1", 5⟩, ⟨"Show S01E02 1080p BluRay", "h2", 2⟩]
      = some ⟨"Show S01E02 720p", "h1", 5⟩
    ∧ episodeOutcome
        (fun _ => [⟨"Show S01E02 720p", "h1", 5⟩, ⟨"Show S01E02 1080p BluRay", "h2", 2⟩])
        "Show" (1, 2)
      = some ⟨"Show S01E02 720p", "h1", 5⟩
    ∧ (⟨"Show S01E02 720p", "h1", 5⟩ : Candidate)
        ≠ ⟨"Show S01E02 1080p BluRay", "h2", 2⟩ := by
  decide

/-- C3 amended: the code does not rank candidates.  For each quality string in
order it issues one query, and within a query's results it acquires the first
candidate (in provider order) whose name is non-empty and contains an SxxExx
marker; the quality whose results first contain such a candidate wins, and the
seeder counts are never consulted (replacing every seeder count pointwise
leaves the selection unchanged). -/
theorem c3_first_valid_result_seeders_ignored (results : List Candidate)
    (search : String → List Candidate) (title : String) (ep : EpKey)
    (qs : List String) :
    (∀ c, selectCandidate results = some c ↔
      ∃ pre post, results = pre ++ c :: post ∧ validNameB c.name = true
        ∧ ∀ x ∈ pre, validNameB x.name = false)
    ∧ (selectCandidate results = none ↔ ∀ c ∈ results, validNameB c.name = false)
    ∧ (∀ g : Candidate → Int,
        selectCandidate (results.map (fun c => ⟨c.name, c.infoHash, g c⟩)) =
          (selectCandidate results).map (fun c => ⟨c.name, c.infoHash, g c⟩))
    ∧ (∀ c, qualityLoop search title ep qs = some c ↔
        ∃ pre q post, qs = pre ++ q :: post
          ∧ selectCandidate (search (episodeQuery title ep q)) = some c
          ∧ ∀ q2 ∈ pre, selectCandidate (search (episodeQuery title ep q2)) = none) :=
  ⟨fun c => selectCandidate_eq_some_iff results c,
   selectCandidate_eq_none_iff results,
   fun g => selectCandidate_seeder_blind g results,
   fun c => qualityLoop_eq_some_iff search title ep qs c⟩

/-- Witness for `c3_first_valid_result_seeders_ignored`: concrete selection of
the first SxxExx-named result regardless of its lower seeder count. -/
theorem c3_first_valid_result_seeders_ignored_witness :
    selectCandidate
        [⟨"Show S01E02 720p", "h1", 2⟩, ⟨"Show S01E02 1080p BluRay", "h2", 5⟩]
      = some ⟨"Show S01E02 720p", "h1", 2⟩ :=
  ((c3_first_valid_result_seeders_ignored
      [⟨"Show S01E02 720p", "h1", 2⟩, ⟨"Show S01E02 1080p BluRay", "h2", 5⟩]
      (fun _ => []) "Show" (1, 2) []).1
    ⟨"Show S01E02 720p", "h1", 2⟩).mpr
    ⟨[], [⟨"Show S01E02 1080p BluRay", "h2", 5⟩], rfl, by decide, by simp⟩

theorem sxxexxB_iff_drop (l : List Char) :
    sxxexxB l = true ↔ ∃ i, sxxexxAt (l.drop i) = true := by
  induction l with
  | nil =>
    constructor
    · intro h
      exact absurd h (by simp [sxxexxB])
    · rintro ⟨i, hi⟩
      rw [List.drop_nil] at hi
      exact absurd hi (by simp [sxxexxAt])
  | cons c t ih =>
    show (sxxexxAt (c :: t) || sxxexxB t) = true ↔ _
    rw [Bool.or_eq_true, ih]
    constructor
    · rintro (hat | ⟨i, hi⟩)
      · exact ⟨0, hat⟩
      · exact ⟨i + 1, by simpa using hi⟩
    · rintro ⟨i, hi⟩
      cases i with
      | zero => exact Or.inl (by simpa using hi)
      | succ j => exact Or.inr ⟨j, by simpa using hi⟩

/-- The acceptance test of the main script's result loop
(src/torrent_series_retriever.py lines 315-320): skip the `"No results
returned"` placeholder, then require an SxxExx marker and the series title as
a case-insensitive substring of the name. -/
def validNameMainB (title name : String) : Bool :=
  (name != "No results returned") && sxxexxB name.data
    && hasSubstrB (lowerB title) (lowerB name)

/-- C4 counterexample: a candidate named `"Show S01E02 720p"` is acquired by
the quality loop while it is processing the tier
`"2160p 10bit HDR Atmos DTS-X 7.1 H265"` (the first quality), although not
one token of that tier occurs in the candidate's name: the code checks only
that the name is non-empty and contains an SxxExx marker, never the tier
tokens. -/
theorem c4_counterexample :
    selectCandidate [⟨"Show S01E02 720p", "h1", 5⟩]
      = some ⟨"Show S01E02 720p", "h1", 5⟩
    ∧ qualityLoop (fun _ => [⟨"Show S01E02 720p", "h1", 5⟩]) "Show" (1, 2) qualities
      = some ⟨"Show S01E02 720p", "h1", 5⟩
    ∧ episodeOutcome (fun _ => [⟨"Show S01E02 720p", "h1", 5⟩]) "Show" (1, 2)
      = some ⟨"Show S01E02 720p", "h1", 5⟩
    ∧ qualities.head? = some "2160p 10bit HDR Atmos DTS-X 7.1 H265"
    ∧ specMatches "2160p 10bit HDR Atmos DTS-X 7.1 H265" "Show S01E02 720p" = false := by
  decide

/-- C4 amended: the processor accepts a candidate iff its name is non-empty
and contains the case-insensitive pattern `S\d\dE\d\d` somewhere; the main
script additionally requires the title as case-insensitive substring and
skips the `"No results returned"` placeholder.  Neither test consults the
quality tier's tokens. -/
theorem c4_acceptance_is_sxxexx_only (title name : String) :
    (validNameB name = true ↔
      name ≠ "" ∧ ∃ i, sxxexxAt (name.data.drop i) = true)
    ∧ (validNameMainB title name = true ↔
      name ≠ "No results returned" ∧ (∃ i, sxxexxAt (name.data.drop i) = true)
        ∧ hasSubstrB (lowerB title) (lowerB name) = true) := by
  constructor
  · rw [validNameB, Bool.and_eq_true, bne_iff_ne, sxxexxB_iff_drop]
  · rw [validNameMainB, Bool.and_eq_true, Bool.and_eq_true, bne_iff_ne, sxxexxB_iff_drop]
    tauto

/-- Witness for `c4_acceptance_is_sxxexx_only` at a concrete name. -/
theorem c4_acceptance_is_sxxexx_only_witness :
    validNameB "Show S01E02 720p" = true :=
  ((c4_acceptance_is_sxxexx_only "Show" "Show S01E02 720p").1).mpr
    ⟨by decide, 5, by decide⟩

/-- One observable outcome of a `requests.get` attempt inside `search_tpb`
(processor lines 119-131; main script lines 179-200): an exception (network
error or JSON parse error, both swallowed by the `except`), an HTTP 429
rate-limit response, or an ordinary response whose body either starts with
`[` (pre-parsed into `items`) or does not. -/
inductive TpbResp where
  | exn
  | rate
  | ok (bracket : Bool) (items : List Candidate)
  deriving DecidableEq

/-- The function `search_tpb` over a trace of successive attempt outcomes: on 429 the code
sleeps and calls itself again with no attempt counter, so it consumes the
next outcome; `none` means the trace was exhausted while still retrying. -/
def search_tpb : List TpbResp → Option (List Candidate)
  | [] => none
  | .exn :: _ => some []
  | .rate :: rest => search_tpb rest
  | .ok bracket items :: _ => some (if bracket then items else [])

/-- Number of HTTP attempts `search_tpb` performs on a trace. -/
def tpbAttempts : List TpbResp → Nat
  | [] => 0
  | .exn :: _ => 1
  | .rate :: rest => 1 + tpbAttempts rest
  | .ok _ _ :: _ => 1

/-- C5 counterexample: on a trace of four consecutive 429 responses followed
by a success, `search_tpb` performs a fifth attempt and returns that
attempt's candidates — more than the claimed cap of 3 attempts, and not the
claimed "no candidates" outcome after the cap. -/
theorem c5_counterexample :
    search_tpb (List.replicate 4 TpbResp.rate ++ [TpbResp.ok true [⟨"Show S01E02", "h", 1⟩]])
      = some [⟨"Show S01E02", "h", 1⟩]
    ∧ tpbAttempts
        (List.replicate 4 TpbResp.rate ++ [TpbResp.ok true [⟨"Show S01E02", "h", 1⟩]])
      = 5 := by
  decide

/-- C5 amended: the 429 retry is unbounded.  For every number `n` of leading
rate-limit responses the code simply recurses past them — one attempt per 429
— and behaves on the remainder of the trace as a fresh call: it stops only
when a non-429 outcome arrives, and a trace of 429s alone never produces a
result. -/
theorem c5_retry_unbounded (n : Nat) (rest : List TpbResp) :
    search_tpb (List.replicate n TpbResp.rate ++ rest) = search_tpb rest
    ∧ tpbAttempts (List.replicate n TpbResp.rate ++ rest) = n + tpbAttempts rest
    ∧ search_tpb (List.replicate n TpbResp.rate) = none := by
  induction n with
  | zero => simp [search_tpb]
  | succ m ih =>
    refine ⟨?_, ?_, ?_⟩
    · rw [List.replicate_succ, List.cons_append]
      show search_tpb (List.replicate m TpbResp.rate ++ rest) = search_tpb rest
      exact ih.1
    · rw [List.replicate_succ, List.cons_append]
      show 1 + tpbAttempts (List.replicate m TpbResp.rate ++ rest) = m + 1 + tpbAttempts rest
      rw [ih.2.1]
      omega
    · rw [List.replicate_succ]
      show search_tpb (List.replicate m TpbResp.rate) = none
      exact ih.2.2

/-- The todo loop of `process_series` viewed at the unit level: each work
unit's resolution either succeeds with a value or raises (the magnet-add path
raises `RuntimeError` on a failed qBittorrent login, processor lines 94-99;
in the main script also on a non-200 add, lines 233-236).  There is no
per-unit `try`, so the loop processes units until the first raising unit and
the exception aborts the rest of the entry's units. -/
def processUnits {α : Type} : List (Except String α) → List α × Option String
  | [] => ([], none)
  | .ok a :: rest =>
    let p := processUnits rest
    (a :: p.1, p.2)
  | .error e :: _ => ([], some e)

/-- The driver `run_all_searches` (processor lines 365-376): every catalog entry is
wrapped in its own `try/except`, so one entry's exception is recorded and the
remaining entries still run. -/
def run_all_searches {α : Type} (entries : List (List (Except String α))) :
    List (List α × Option String) :=
  entries.map processUnits

/-- C6 counterexample: within one catalog entry of three work units whose
second unit raises (a qBittorrent login failure), the third unit is never
processed — the claim that an acquisition error does not abort the remaining
units of the same entry is false. -/
theorem c6_counterexample :
    processUnits [Except.ok 1, Except.error "qBittorrent login mislukt", Except.ok 2]
      = ([1], some "qBittorrent login mislukt")
    ∧ (2 : Nat) ∉
      (processUnits [Except.ok 1, Except.error "qBittorrent login mislukt", Except.ok 2]).1 := by
  decide

/-- C6 amended: search errors never raise (`search_tpb` returns `[]`), but an
exception while resolving a unit aborts the remaining units of the same
catalog entry: the units before the first raising unit are processed, the
error is recorded, and everything after it is dropped.  Isolation does hold
at the catalog-entry level: entries before and after a failing entry are all
still processed. -/
theorem c6_unit_abort_entry_isolation {α : Type} (pre : List α) (e : String)
    (rest : List (Except String α)) (es1 es2 : List (List (Except String α)))
    (bad : List (Except String α)) :
    processUnits (pre.map Except.ok ++ Except.error e :: rest) = (pre, some e)
    ∧ processUnits (pre.map Except.ok) = (pre, none)
    ∧ run_all_searches (es1 ++ bad :: es2)
      = run_all_searches es1 ++ processUnits bad :: run_all_searches es2
    ∧ search_tpb [TpbResp.exn] = some [] := by
  refine ⟨?_, ?_, by simp [run_all_searches], rfl⟩
  · induction pre with
    | nil => rfl
    | cons a t ih => simp [processUnits, ih]
  · induction pre with
    | nil => rfl
    | cons a t ih => simp [processUnits, ih]

/-- The lookup `get_existing_episodes` (processor lines 82-91; equivalently main script
lines 94-110 with `MYSQL_ENABLED` for `USE_MYSQL`): returns the empty set
when the id is missing or MySQL is not configured; otherwise it connects with
no exception handling, so a failing connection propagates the error.  The
database is modelled as the outcome of `get_mysql_connection` +
`cur.fetchall()`: either an error or the `(c12, c13)` rows for the show. -/
def get_existing_episodes (useMysql : Bool) (seriesId : Option Int)
    (conn : Except String (List EpKey)) : Except String (Finset EpKey) :=
  if seriesId = none || !useMysql then .ok ∅
  else do
    let rows ← conn
    .ok rows.toFinset

/-- C7 counterexample: with MySQL configured and a known series id, an
unavailable backing store makes `get_existing_episodes` propagate the
connection error instead of returning the empty set, contradicting the claim
for the "unavailable" case. -/
theorem c7_counterexample :
    get_existing_episodes true (some 3) (Except.error "connection refused")
      = Except.error "connection refused"
    ∧ get_existing_episodes true (some 3) (Except.error "connection refused")
      ≠ Except.ok (∅ : Finset EpKey) := by
  constructor
  · rfl
  · intro h
    exact Except.noConfusion h

/-- C7 amended: the lookup returns the empty set, not an error, when it is
UNCONFIGURED (MySQL disabled, or no series id); but when MySQL is configured
and an id is present, a store failure propagates as an error (it is caught
only at the per-entry level), and a reachable store returns its rows as a
set. -/
theorem c7_empty_only_when_unconfigured (b useMysql : Bool) (sid : Option Int)
    (conn : Except String (List EpKey)) (i : Int) (e : String) (rows : List EpKey) :
    get_existing_episodes b none conn = Except.ok ∅
    ∧ get_existing_episodes false sid conn = Except.ok ∅
    ∧ get_existing_episodes true (some i) (Except.error e) = Except.error e
    ∧ get_existing_episodes true (some i) (Except.ok rows) = Except.ok rows.toFinset
    ∧ (useMysql = true → sid ≠ none →
        get_existing_episodes useMysql sid conn = conn.map List.toFinset) := by
  refine ⟨rfl, by simp [get_existing_episodes], rfl, rfl, ?_⟩
  rintro rfl hsid
  cases sid with
  | none => exact absurd rfl hsid
  | some j =>
    cases conn with
    | error err => rfl
    | ok rows2 => rfl

/-- Witness for `c7_empty_only_when_unconfigured` at a concrete store. -/
theorem c7_empty_only_when_unconfigured_witness :
    get_existing_episodes true (some 3) (Except.ok [((1:Int), (2:Int))])
      = (Except.ok [((1:Int), (2:Int))] : Except String (List EpKey)).map List.toFinset :=
  (c7_empty_only_when_unconfigured true true (some 3) (Except.ok [(1, 2)]) 3 "e"
    [(1, 2)]).2.2.2.2 rfl (by simp)

/-- A `releaseDate` JSON object: the three keys the code reads, each possibly
absent (a missing key raises `KeyError`/`TypeError`, swallowed by the bare
`except`). -/
structure RDRec where
  year : Option Int
  month : Option Int
  day : Option Int
  deriving DecidableEq

/-- One episode record of the IMDb episodes response: `season`,
`episodeNumber` and `releaseDate` as read by `get_series_episodes`. -/
structure EpRec where
  season : Option Int
  episodeNumber : Option Int
  releaseDate : Option RDRec
  deriving DecidableEq

/-- Gregorian leap year, as `datetime.date` validates it. -/
def isLeapYear (y : Int) : Bool :=
  y % 4 == 0 && (y % 100 != 0 || y % 400 == 0)

/-- Days in a month, as `datetime.date` validates it. -/
def daysInMonth (y m : Int) : Int :=
  if m == 2 then (if isLeapYear y then 29 else 28)
  else if m == 4 || m == 6 || m == 9 || m == 11 then 30
  else 31

/-- Whether `datetime.date(y, m, d)` succeeds: `MINYEAR ≤ y ≤ MAXYEAR`, valid month,
valid day for the month. -/
def validDate (y m d : Int) : Bool :=
  decide (1 ≤ y ∧ y ≤ 9999 ∧ 1 ≤ m ∧ m ≤ 12 ∧ 1 ≤ d ∧ d ≤ daysInMonth y m)

/-- The call `datetime.date(rd["year"], rd["month"], rd["day"])` inside the `try`:
`none` when a key is missing or the values do not form a valid date (the
exception is swallowed and the episode is skipped). -/
def mkReleaseDate (rd : RDRec) : Option (Int × Int × Int) :=
  match rd.year, rd.month, rd.day with
  | some y, some m, some d => if validDate y m d then some (y, m, d) else none
  | _, _, _ => none

/-- The `date` comparison `d <= yesterday`: lexicographic on (year, month, day). -/
def dateLE (a b : Int × Int × Int) : Bool :=
  decide (a.1 < b.1 ∨ (a.1 = b.1 ∧ (a.2.1 < b.2.1 ∨ (a.2.1 = b.2.1 ∧ a.2.2 ≤ b.2.2))))

/-- The test `if seasons_filter and int(s) not in seasons_filter: continue` (processor
line 156): Python truthiness makes `None` and the empty collection both skip
nothing. -/
def filterSkips (filt : Option (List Int)) (s : Int) : Bool :=
  match filt with
  | some l => !l.isEmpty && !l.contains s
  | none => false

/-- The body of the per-record loop of `get_series_episodes` (processor lines
150-164): the contribution of one episode record — `none` when the record is
skipped, `some (season, episode)` when it is added to the set. -/
def includeEp (yesterday : Int × Int × Int) (filt : Option (List Int))
    (ep : EpRec) : Option EpKey :=
  match ep.season, ep.episodeNumber with
  | some s, some e =>
    if filterSkips filt s then none
    else
      match ep.releaseDate with
      | none => none
      | some rd =>
        match mkReleaseDate rd with
        | none => none
        | some d => if dateLE d yesterday then some (s, e) else none
  | _, _ => none

/-- The fetch `get_series_episodes` (processor lines 134-170; `get_all_episodes_imdb`
in the main script, lines 114-175): empty when there is no imdb id, otherwise
the set of (season, episode) pairs of the records that pass the season filter
and carry a valid, already-aired release date.  Pagination is flattened into
the concatenated record list. -/
def get_series_episodes (imdbId : String) (yesterday : Int × Int × Int)
    (filt : Option (List Int)) (records : List EpRec) : Finset EpKey :=
  if imdbId = "" then ∅
  else (records.filterMap (includeEp yesterday filt)).toFinset

/-- The normalization `set(seasons_filter) if seasons_filter else None` in `Serie.__init__`
(main script line 246): the empty collection collapses to `None`. -/
def serieSeasonsFilter (sf : Option (List Int)) : Option (Finset Int) :=
  match sf with
  | some l => if l.isEmpty then none else some l.toFinset
  | none => none

theorem includeEp_empty_filter (yesterday : Int × Int × Int) (ep : EpRec) :
    includeEp yesterday (some []) ep = includeEp yesterday none ep := by
  obtain ⟨os, oe, ord⟩ := ep
  cases os with
  | none => rfl
  | some s =>
    cases oe with
    | none => rfl
    | some e => simp [includeEp, filterSkips]

/-- C8: an empty season-filter collection applies no filtering at all — the
fetched episode set is identical to the unfiltered one, for every record
list; likewise `Serie.__init__` collapses an empty filter collection to the
no-filter value. -/
theorem c8_empty_filter_filters_nothing (imdbId : String)
    (yesterday : Int × Int × Int) (records : List EpRec)
    (sf : Option (List Int)) :
    get_series_episodes imdbId yesterday (some []) records
      = get_series_episodes imdbId yesterday none records
    ∧ serieSeasonsFilter (some []) = serieSeasonsFilter none
    ∧ (sf = some [] ∨ sf = none → serieSeasonsFilter sf = none) := by
  refine ⟨?_, rfl, ?_⟩
  · unfold get_series_episodes
    have hfun : includeEp yesterday (some []) = includeEp yesterday none :=
      funext (fun ep => includeEp_empty_filter yesterday ep)
    rw [hfun]
  · rintro (rfl | rfl) <;> rfl

/-- Witness for `c8_empty_filter_filters_nothing` at a concrete record list. -/
theorem c8_empty_filter_filters_nothing_witness :
    get_series_episodes "tt1" (2026, 10, 11) (some [])
        [⟨some 1, some 2, some ⟨some 2020, some 5, some 17⟩⟩]
      = get_series_episodes "tt1" (2026, 10, 11) none
        [⟨some 1, some 2, some ⟨some 2020, some 5, some 17⟩⟩] :=
  (c8_empty_filter_filters_nothing "tt1" (2026, 10, 11)
    [⟨some 1, some 2, some ⟨some 2020, some 5, some 17⟩⟩] none).1

/-- C9: an episode record whose `releaseDate` is absent, or whose
year/month/day do not form a valid date, contributes nothing to the desired
episode set: its per-record contribution is `none`, and deleting it from any
response leaves the fetched set unchanged. -/
theorem c9_bad_release_date_excluded (imdbId : String)
    (yesterday : Int × Int × Int) (filt : Option (List Int)) (r : EpRec)
    (pre post : List EpRec)
    (h : r.releaseDate = none ∨ ∃ rd, r.releaseDate = some rd ∧ mkReleaseDate rd = none) :
    includeEp yesterday filt r = none
    ∧ get_series_episodes imdbId yesterday filt (pre ++ r :: post)
      = get_series_episodes imdbId yesterday filt (pre ++ post) := by
  have hnone : includeEp yesterday filt r = none := by
    obtain ⟨os, oe, ord⟩ := r
    cases os with
    | none => rfl
    | some s =>
      cases oe with
      | none => rfl
      | some e =>
        rcases h with hrd | ⟨rd, hrd, hmk⟩
        · simp only at hrd
          by_cases hskip : filterSkips filt s = true <;>
            simp [includeEp, hskip, hrd]
        · simp only at hrd
          by_cases hskip : filterSkips filt s = true <;>
            simp [includeEp, hskip, hrd, hmk]
  refine ⟨hnone, ?_⟩
  by_cases hid : imdbId = ""
  · simp [get_series_episodes, hid]
  · simp [get_series_episodes, hid, List.filterMap_append, List.filterMap_cons, hnone]

/-- Witness for `c9_bad_release_date_excluded`: a record with no releaseDate. -/
theorem c9_bad_release_date_excluded_witness :
    get_series_episodes "tt1" (2026, 10, 11) none
        [(⟨some 1, some 1, none⟩ : EpRec)]
      = get_series_episodes "tt1" (2026, 10, 11) none [] :=
  (c9_bad_release_date_excluded "tt1" (2026, 10, 11) none ⟨some 1, some 1, none⟩
    [] [] (Or.inl rfl)).2

/-- The film quality list of `process_film` (processor line 343). -/
def filmQualities : List String :=
  ["2160p HDR", "2160p", "h265", "1080p BluRay", "1080p WEB-DL", "1080p"]

/-- The query of `process_film` (lines 345-350): title, the year when
present, and the quality, joined by single spaces. -/
def filmQuery (title : String) (year : Option Int) (q : String) : String :=
  match year with
  | some y => title ++ " " ++ toString y ++ " " ++ q
  | none => title ++ " " ++ q

/-- The inner result loop of `process_film` (lines 351-358): the first result
whose name is non-empty is acquired; nothing else about the name is checked
(even the `"No results returned"` placeholder is accepted). -/
def firstNamed : List Candidate → Option Candidate
  | [] => none
  | r :: rest => if r.name ≠ "" then some r else firstNamed rest

/-- The quality loop of `process_film` with its `found` flag (lines 344-360). -/
def filmQualityLoop (search : String → List Candidate) (title : String)
    (year : Option Int) : List String → Option Candidate
  | [] => none
  | q :: qs =>
    match firstNamed (search (filmQuery title year q)) with
    | some c => some c
    | none => filmQualityLoop search title year qs

/-- The film driver `process_film` (processor lines 328-362): return without searching when
the film is already present in Kodi (truthy kodi id; `idShow` is a positive
auto-increment), otherwise submit the first non-empty-named result over the
quality list.  The result is the list of magnet submissions made. -/
def process_film (kodiId : Option Int) (search : String → List Candidate)
    (title : String) (year : Option Int) : List Candidate :=
  match kodiId with
  | some _ => []
  | none => (filmQualityLoop search title year filmQualities).toList

theorem firstNamed_eq_some_iff (l : List Candidate) (c : Candidate) :
    firstNamed l = some c ↔
      ∃ pre post, l = pre ++ c :: post ∧ c.name ≠ "" ∧ ∀ x ∈ pre, x.name = "" := by
  induction l with
  | nil =>
    constructor
    · intro h
      exact absurd h (by simp [firstNamed])
    · rintro ⟨pre, post, heq, -, -⟩
      exact absurd heq (by simp)
  | cons r rest ih =>
    show (if r.name ≠ "" then some r else firstNamed rest) = some c ↔ _
    by_cases h : r.name = ""
    · rw [if_neg (fun hne => hne h), ih]
      constructor
      · rintro ⟨pre, post, heq, hc, hpre⟩
        refine ⟨r :: pre, post, by rw [List.cons_append, heq], hc, ?_⟩
        intro x hx
        rcases List.mem_cons.mp hx with rfl | hx2
        · exact h
        · exact hpre x hx2
      · rintro ⟨pre, post, heq, hc, hpre⟩
        cases pre with
        | nil =>
          rw [List.nil_append] at heq
          obtain ⟨rfl, -⟩ := List.cons_eq_cons.mp heq
          exact absurd h hc
        | cons p pre2 =>
          rw [List.cons_append] at heq
          obtain ⟨rfl, hrest⟩ := List.cons_eq_cons.mp heq
          exact ⟨pre2, post, hrest, hc, fun x hx => hpre x (List.mem_cons_of_mem _ hx)⟩
    · rw [if_pos h]
      constructor
      · intro hrc
        obtain rfl : r = c := Option.some.inj hrc
        exact ⟨[], rest, rfl, h, by simp⟩
      · rintro ⟨pre, post, heq, hc, hpre⟩
        cases pre with
        | nil =>
          rw [List.nil_append] at heq
          rw [(List.cons_eq_cons.mp heq).1]
        | cons p pre2 =>
          rw [List.cons_append] at heq
          obtain ⟨rfl, -⟩ := List.cons_eq_cons.mp heq
          exact absurd (hpre r (List.mem_cons_self r pre2)) h

theorem filmQualityLoop_eq_some_iff (search : String → List Candidate)
    (title : String) (year : Option Int) (qs : List String) (c : Candidate) :
    filmQualityLoop search title year qs = some c ↔
      ∃ pre q post, qs = pre ++ q :: post
        ∧ firstNamed (search (filmQuery title year q)) = some c
        ∧ ∀ q2 ∈ pre, firstNamed (search (filmQuery title year q2)) = none := by
  induction qs with
  | nil =>
    constructor
    · intro h
      exact absurd h (by simp [filmQualityLoop])
    · rintro ⟨pre, q, post, heq, -, -⟩
      exact absurd heq (by simp)
  | cons q0 qs2 ih =>
    show (match firstNamed (search (filmQuery title year q0)) with
      | some c2 => some c2
      | none => filmQualityLoop search title year qs2) = some c ↔ _
    cases hfn : firstNamed (search (filmQuery title year q0)) with
    | some c2 =>
      simp only [Option.some.injEq]
      constructor
      · rintro rfl
        exact ⟨[], q0, qs2, rfl, hfn, by simp⟩
      · rintro ⟨pre, q, post, heq, hq, hpre⟩
        cases pre with
        | nil =>
          rw [List.nil_append] at heq
          obtain ⟨rfl, -⟩ := List.cons_eq_cons.mp heq
          rw [hfn] at hq
          exact Option.some.inj hq
        | cons p pre2 =>
          rw [List.cons_append] at heq
          obtain ⟨rfl, -⟩ := List.cons_eq_cons.mp heq
          have := hpre q0 (List.mem_cons_self q0 pre2)
          rw [hfn] at this
          exact absurd this (by simp)
    | none =>
      rw [ih]
      constructor
      · rintro ⟨pre, q, post, heq, hq, hpre⟩
        refine ⟨q0 :: pre, q, post, by rw [List.cons_append, heq], hq, ?_⟩
        intro q2 hq2
        rcases List.mem_cons.mp hq2 with rfl | hq3
        · exact hfn
        · exact hpre q2 hq3
      · rintro ⟨pre, q, post, heq, hq, hpre⟩
        cases pre with
        | nil =>
          rw [List.nil_append] at heq
          obtain ⟨rfl, -⟩ := List.cons_eq_cons.mp heq
          rw [hfn] at hq
          exact absurd hq (by simp)
        | cons p pre2 =>
          rw [List.cons_append] at heq
          obtain ⟨rfl, hrest⟩ := List.cons_eq_cons.mp heq
          exact ⟨pre2, q, post, hrest, hq, fun q2 h2 => hpre q2 (List.mem_cons_of_mem _ h2)⟩

/-- C10: film processing submits at most one acquisition per film; the
submitted candidate (when the film is not already in Kodi) is exactly the
first result with a non-empty name from the earliest quality whose results
contain one — the only test applied to a name is non-emptiness (no check of
title, year or quality tokens), and a film already in Kodi submits nothing. -/
theorem c10_film_first_nonempty_name (kodiId : Option Int)
    (search : String → List Candidate) (title : String) (year : Option Int) :
    (process_film kodiId search title year).length ≤ 1
    ∧ (∀ c, c ∈ process_film none search title year ↔
        ∃ pre q post, filmQualities = pre ++ q :: post
          ∧ firstNamed (search (filmQuery title year q)) = some c
          ∧ ∀ q2 ∈ pre, firstNamed (search (filmQuery title year q2)) = none)
    ∧ (∀ l c, firstNamed l = some c ↔
        ∃ pre post, l = pre ++ c :: post ∧ c.name ≠ "" ∧ ∀ x ∈ pre, x.name = "")
    ∧ (∀ i, process_film (some i) search title year = []) := by
  refine ⟨?_, ?_, fun l c => firstNamed_eq_some_iff l c, fun i => rfl⟩
  · cases kodiId with
    | some i => simp [process_film]
    | none =>
      show (filmQualityLoop search title year filmQualities).toList.length ≤ 1
      cases filmQualityLoop search title year filmQualities <;> simp
  · intro c
    show c ∈ (filmQualityLoop search title year filmQualities).toList ↔ _
    rw [← filmQualityLoop_eq_some_iff]
    cases filmQualityLoop search title year filmQualities with
    | none => simp
    | some c2 => simp [eq_comm]

/-- Witness for `c10_film_first_nonempty_name`: a concrete film submission. -/
theorem c10_film_first_nonempty_name_witness :
    (⟨"Totally Unrelated Junk", "h9", 0⟩ : Candidate) ∈
      process_film none (fun _ => [⟨"Totally Unrelated Junk", "h9", 0⟩])
        "Movie Title" (some 2020) :=
  ((c10_film_first_nonempty_name none
      (fun _ => [⟨"Totally Unrelated Junk", "h9", 0⟩]) "Movie Title" (some 2020)).2.1
    ⟨"Totally Unrelated Junk", "h9", 0⟩).mpr
    ⟨[], "2160p HDR", ["2160p", "h265", "1080p BluRay", "1080p WEB-DL", "1080p"],
      rfl, by decide, by simp⟩

/-- Witness for `c5_retry_unbounded` at a concrete trace. -/
theorem c5_retry_unbounded_witness :
    search_tpb (List.replicate 2 TpbResp.rate ++ [TpbResp.exn])
      = search_tpb [TpbResp.exn]
    ∧ tpbAttempts (List.replicate 2 TpbResp.rate ++ [TpbResp.exn])
      = 2 + tpbAttempts [TpbResp.exn] :=
  ⟨(c5_retry_unbounded 2 [TpbResp.exn]).1, (c5_retry_unbounded 2 [TpbResp.exn]).2.1⟩

/-- Witness for `c6_unit_abort_entry_isolation` at a concrete entry. -/
theorem c6_unit_abort_entry_isolation_witness :
    processUnits ([1].map Except.ok ++ Except.error "boom" :: [Except.ok 2])
      = ([(1 : Nat)], some "boom") :=
  (c6_unit_abort_entry_isolation [1] "boom" [Except.ok 2] [] [] []).1
